import Mathlib

/-!
# Verification of the job-feed ingestion worker

A shallow embedding, in Lean, of the per-tenant ingestion worker of this
repository (`functions/index.js`): the location filter, the effective-freshness
timestamp rule, the recency gate, the read-free upsert engine, the feed loader,
the run accounting and the fetch retry loop.  JavaScript strings are modelled
by Lean strings restricted to the ASCII behaviour of `toUpperCase`,
`toLowerCase`, `trim` and the regex character classes the code uses; machine
time is modelled by `Int` milliseconds; `Date.parse` is modelled by an abstract
function `String → Option Int` (`none` for `NaN`).
-/

namespace JobWatch

/-! ## JavaScript string primitives -/

/-- Models `String.prototype.toUpperCase`, restricted to ASCII case mapping. -/
def jsUpper (s : String) : String := String.mk (s.data.map Char.toUpper)

/-- Models `String.prototype.toLowerCase`, restricted to ASCII case mapping. -/
def jsLower (s : String) : String := String.mk (s.data.map Char.toLower)

/-- Whitespace as matched by the JS regex class `\s` and by `trim`
(ASCII subset: space, tab, line feed, carriage return, vertical tab,
form feed). -/
def isJsSpace (c : Char) : Bool :=
  c = ' ' || c = '\t' || c = '\n' || c = '\r' || c = '\x0b' || c = '\x0c'

/-- Drop leading JS whitespace from a character list. -/
def dropJsSpace : List Char → List Char
  | [] => []
  | c :: cs => if isJsSpace c then dropJsSpace cs else c :: cs

/-- Models `String.prototype.trim`. -/
def jsTrim (s : String) : String :=
  String.mk (dropJsSpace (dropJsSpace s.data).reverse).reverse

/-- Models `pat` is a prefix of the character list. -/
def listStartsWith : List Char → List Char → Bool
  | _, [] => true
  | [], _ :: _ => false
  | a :: as, b :: bs => a = b && listStartsWith as bs

/-- Models `pat` occurs somewhere in the character list. -/
def listContainsSub (pat : List Char) : List Char → Bool
  | [] => pat.isEmpty
  | c :: t => listStartsWith (c :: t) pat || listContainsSub pat t

/-- Models `String.prototype.includes`. -/
def containsStr (hay pat : String) : Bool := listContainsSub pat.data hay.data

/-- If `pat` is a prefix of the list, return the character right after the
match (`none` when the match reaches the end of the string).  Returns
`Option.none` at the outer level when `pat` is not a prefix. -/
def matchEnd : List Char → List Char → Option (Option Char)
  | rest, [] => match rest with | [] => some none | c :: _ => some (some c)
  | [], _ :: _ => none
  | c :: cs, p :: ps => if c = p then matchEnd cs ps else none

/-- Models `pat` occurs in the string at a position whose preceding character
satisfies `okL` (`none` = start of string) and whose following character
satisfies `okR` (`none` = end of string).  `prev` is the character
immediately before the current scan position. -/
def occursWithAux (okL okR : Option Char → Bool) (pat : List Char) :
    Option Char → List Char → Bool
  | prev, [] =>
    okL prev && (match matchEnd [] pat with
                 | some nxt => okR nxt
                 | none => false)
  | prev, c :: cs =>
    (okL prev && (match matchEnd (c :: cs) pat with
                  | some nxt => okR nxt
                  | none => false))
    || occursWithAux okL okR pat (some c) cs

/-- Boundary-aware occurrence test on strings. -/
def occursWithStr (okL okR : Option Char → Bool) (hay pat : String) : Bool :=
  occursWithAux okL okR pat.data none hay.data

/-- The left delimiter class of the city/state regexes in `isUSLocation`:
start of string, or one of comma, whitespace, slash, bullet, hyphen, pipe. -/
def leftDelimOk : Option Char → Bool
  | none => true
  | some c => c = ',' || isJsSpace c || c = '/' || c = '•' || c = '-' || c = '|'

/-- The right delimiter class of the city/state regexes in `isUSLocation`:
end of string, or one of whitespace, comma, semicolon, slash, bullet,
hyphen, pipe. -/
def rightDelimOk : Option Char → Bool
  | none => true
  | some c => isJsSpace c || c = ',' || c = ';' || c = '/' || c = '•' || c = '-' || c = '|'

/-- JS regex word character `\w`: ASCII letter, digit or underscore. -/
def isWordChar (c : Char) : Bool :=
  ('a' ≤ c && c ≤ 'z') || ('A' ≤ c && c ≤ 'Z') || ('0' ≤ c && c ≤ '9') || c = '_'

/-- A JS regex word boundary `\b` next to a word character: the neighbour is
missing or is not a word character. -/
def wordBoundaryOk : Option Char → Bool
  | none => true
  | some c => !isWordChar c

/-- Decimal digit character. -/
def digitChar (d : Nat) : Char :=
  if d = 0 then '0' else if d = 1 then '1' else if d = 2 then '2' else if d = 3 then '3'
  else if d = 4 then '4' else if d = 5 then '5' else if d = 6 then '6' else if d = 7 then '7'
  else if d = 8 then '8' else '9'

/-- Decimal digits of a number, with explicit fuel for structural
recursion. -/
def natDigits : Nat → Nat → List Char
  | 0, _ => []
  | fuel + 1, n =>
    if n < 10 then [digitChar n] else natDigits fuel (n / 10) ++ [digitChar (n % 10)]

/-- Decimal rendering of a number (the JS number-to-string coercion used in
template literals). -/
def natToStr (n : Nat) : String := String.mk (natDigits (n + 1) n)

/-- Decimal rendering of a possibly negative integer. -/
def intToStr : Int → String
  | .ofNat n => natToStr n
  | .negSucc n => "-" ++ natToStr (n + 1)

/-! ## Location filter constants (`functions/index.js`) -/

/-- Models `REMOTE_EXCLUDE_SUBSTRINGS`: lower-case country substrings a "remote"
location must not contain. -/
def REMOTE_EXCLUDE_SUBSTRINGS : List String := [
  "albania","andorra","austria","belgium","bosnia and herzegovina","bulgaria","croatia",
  "cyprus","czech republic","denmark","estonia","finland","france","germany","greece",
  "hungary","iceland","ireland","italy","latvia","liechtenstein","lithuania","luxembourg",
  "malta","monaco","montenegro","netherlands","north macedonia","norway","poland",
  "portugal","romania","san marino","serbia","slovakia","slovenia","spain","sweden",
  "switzerland","ukraine","united kingdom","vatican city",
  "afghanistan","armenia","azerbaijan","bahrain","bangladesh","bhutan","brunei",
  "cambodia","china","georgia","india","indonesia","iran","iraq","israel","japan",
  "jordan","kazakhstan","kuwait","kyrgyzstan","laos","lebanon","malaysia","maldives",
  "mongolia","myanmar","nepal","north korea","oman","pakistan","philippines","qatar",
  "saudi arabia","singapore","south korea","sri lanka","syria","tajikistan","thailand",
  "timor-leste","turkey","turkmenistan","united arab emirates","uzbekistan","vietnam","yemen",
  "algeria","angola","benin","botswana","burkina faso","burundi","cabo verde",
  "cameroon","central african republic","chad","comoros","congo","costa d\x27ivoire",
  "djibouti","egypt","equatorial guinea","eritrea","eswatini","ethiopia","gabon",
  "gambia","ghana","guinea","guinea-bissau","kenya","lesotho","liberia","libya",
  "madagascar","malawi","mali","mauritania","mauritius","morocco","mozambique",
  "namibia","niger","nigeria","rwanda","sao tome and principe","senegal","seychelles",
  "sierra leone","somalia","south africa","south sudan","sudan","tanzania","togo",
  "tunisia","uganda","zambia","zimbabwe",
  "argentina","bolivia","brazil","chile","colombia","ecuador","guyana","paraguay",
  "peru","suriname","uruguay","venezuela",
  "antigua and barbuda","bahamas","barbados","belize","cuba","dominica",
  "dominican republic","el salvador","grenada","guatemala","haiti","honduras",
  "jamaica","nicaragua","panama","saint kitts and nevis","saint lucia",
  "saint vincent and the grenadines","trinidad and tobago",
  "canada","mexico",
  "australia","fiji","kiribati","marshall islands","micronesia","nauru",
  "new zealand","palau","papua new guinea","samoa","solomon islands","tonga",
  "tuvalu","vanuatu"]

/-- Models `US_STATE_CODES`. -/
def US_STATE_CODES : List String := [
  "AL","AK","AZ","AR","CA","CO","CT","DE","FL","GA","HI","ID","IL","IN","IA","KS","KY","LA",
  "ME","MD","MA","MI","MN","MS","MO","MT","NE","NV","NH","NJ","NM","NY","NC","ND","OH","OK",
  "OR","PA","RI","SC","SD","TN","TX","UT","VT","VA","WA","WV","WI","WY","DC"]

/-- Models `US_KEYWORDS`. -/
def US_KEYWORDS : List String := [
  "REMOTE",
  "UNITED STATES",
  "USA",
  "AMER - US",
  "USCA",
  "US-REMOTE",
  "US REMOTE",
  "REMOTE US",
  "REMOTE - US",
  "US-NATIONAL",
  "ANYWHERE IN THE UNITED STATES",
  "U.S."]

/-- Models `MAJOR_US_CITIES`. -/
def MAJOR_US_CITIES : List String := [
  "SAN FRANCISCO","NYC","NEW YORK CITY","LOS ANGELES","CHICAGO","HOUSTON","PHOENIX","PHILADELPHIA",
  "SAN ANTONIO","SAN DIEGO","DALLAS","SAN JOSE","AUSTIN","JACKSONVILLE","FORT WORTH","COLUMBUS",
  "CHARLOTTE","INDIANAPOLIS","SEATTLE","DENVER","BOSTON","EL PASO","NASHVILLE","DETROIT",
  "OKLAHOMA CITY","PORTLAND","LAS VEGAS","MEMPHIS","LOUISVILLE","BALTIMORE","MILWAUKEE",
  "ALBUQUERQUE","TUCSON","FRESNO","SACRAMENTO","MESA","KANSAS CITY","ATLANTA","OMAHA",
  "COLORADO SPRINGS","RALEIGH","LONG BEACH","VIRGINIA BEACH","MIAMI","OAKLAND","MINNEAPOLIS",
  "TULSA","BAKERSFIELD","WICHITA","ARLINGTON"]

/-! ## Location filter functions -/

/-- Models `isUSLocation(locationText)`.  An empty string models a JS falsy
location text. -/
def isUSLocation (locationText : String) : Bool :=
  if locationText = "" then false else
  let text := jsUpper locationText
  if US_KEYWORDS.any (fun kw => containsStr text kw) then true
  else if MAJOR_US_CITIES.any (fun city => occursWithStr leftDelimOk rightDelimOk text city) then
    true
  else
    US_STATE_CODES.any (fun code => occursWithStr leftDelimOk rightDelimOk text code)
    || occursWithStr wordBoundaryOk wordBoundaryOk text "US"
    || containsStr text "U.S."

/-- Models `isRemoteLocation(locationText)`. -/
def isRemoteLocation (locationText : String) : Bool :=
  if locationText = "" then false else
  let s := jsLower (jsTrim locationText)
  if !containsStr s "remote" then false
  else if containsStr s "us-remote" || containsStr s "remote us" || containsStr s "remote - us"
  then true
  else if REMOTE_EXCLUDE_SUBSTRINGS.any (fun bad => containsStr s bad) then false
  else true

/-- Models `shouldKeepJobByLocation(locationName, jobRaw)`; the second argument is
the `isRemote` field of the raw posting (`none` models an absent field). -/
def shouldKeepJobByLocation (locationName : String) (rawIsRemote : Option Bool) : Bool :=
  if rawIsRemote = some true then true
  else isUSLocation locationName || isRemoteLocation locationName

/-- Models `'A' ≤ c ≤ 'Z'`, the regex class `[A-Z]`. -/
def isUpperAZ (c : Char) : Bool := 'A' ≤ c && c ≤ 'Z'

/-- All matches of the global regex `\b[A-Z]{2}\b`, left to right and
non-overlapping, as produced by `text.match(...)`.  `prev` is the character
before the scan position. -/
def twoLetterTokens : Option Char → List Char → List String
  | _, [] => []
  | _, [_] => []
  | prev, a :: b :: rest =>
    if isUpperAZ a && isUpperAZ b && wordBoundaryOk prev
       && (match rest with | [] => true | c :: _ => !isWordChar c) then
      String.mk [a, b] :: twoLetterTokens (some b) rest
    else
      twoLetterTokens (some a) (b :: rest)

/-- Models `extractStateCodes(locationText)`: the `DC` special cases, then every
two-letter standalone token that is a US state code, deduplicated in
insertion order. -/
def extractStateCodes (locationText : String) : List String :=
  if locationText = "" then [] else
  let text := jsUpper locationText
  let dc := containsStr text "WASHINGTON, D.C" || containsStr text "WASHINGTON D.C"
            || containsStr text "WASHINGTON DC"
  let toks := twoLetterTokens none text.data
  toks.foldl
    (fun acc t =>
      if US_STATE_CODES.contains t && !acc.contains t then acc ++ [t] else acc)
    (if dc then ["DC"] else [])

/-! ## Time helpers -/

/-- Models `UPDATE_WINDOW_MS`: only jobs updated/published in the last hour are
ingested. -/
def UPDATE_WINDOW_MS : Int := 60 * 60 * 1000

/-- Models `x || null` on an optional JS string: the empty string is falsy
and collapses to `null`. -/
def orNullStr : Option String → Option String
  | some s => if s = "" then none else some s
  | none => none

/-- Models `parseIsoToMs(iso)`, relative to an abstract model
`parse : String → Option Int` of `Date.parse` (`none` for a non-finite
result). -/
def parseIsoToMs (parse : String → Option Int) (iso : Option String) : Option Int :=
  match iso with
  | none => none
  | some s => if s = "" then none else parse s

/-- A raw upstream posting: the union of the greenhouse fields and the
AshbyHQ fields the worker reads.  `none` models an absent field;
`location_name` is the greenhouse `location.name`, `location` is the ashby plain
string, `ashbyIsRemote` is the `_ashby.isRemote` echo set by the shim. -/
structure RawJob where
  id : Nat
  title : Option String := none
  absolute_url : Option String := none
  apply_url : Option String := none
  updated_at : Option String := none
  first_published : Option String := none
  company_name : Option String := none
  internal_job_id : Option Nat := none
  requisition_id : Option String := none
  language : Option String := none
  location_name : Option String := none
  location : Option String := none
  publishedAt : Option String := none
  jobUrl : Option String := none
  applyUrl : Option String := none
  isRemote : Option Bool := none
  ashbyIsRemote : Option Bool := none
  deriving DecidableEq, Repr

/-- The result shape `{ ms, iso, sourceField }` of the effective-time
helpers. -/
structure EffTime where
  ms : Int
  iso : String
  sourceField : String
  deriving DecidableEq, Repr

/-- Models `greenhouseEffectiveTime(jobRaw)`: the latest of `updated_at` and
`first_published`, using whichever parses when only one does; ties go to
`updated_at`. -/
def greenhouseEffectiveTime (parse : String → Option Int) (j : RawJob) : Option EffTime :=
  let updIso := orNullStr j.updated_at
  let fpIso := orNullStr j.first_published
  match parseIsoToMs parse updIso, parseIsoToMs parse fpIso with
  | none, none => none
  | some u, none => some ⟨u, updIso.getD "", "updated_at"⟩
  | none, some f => some ⟨f, fpIso.getD "", "first_published"⟩
  | some u, some f =>
    if u ≥ f then some ⟨u, updIso.getD "", "updated_at"⟩
    else some ⟨f, fpIso.getD "", "first_published"⟩

/-- Models `ashbyEffectiveTime(jobRaw)`: `publishedAt`. -/
def ashbyEffectiveTime (parse : String → Option Int) (j : RawJob) : Option EffTime :=
  let iso := orNullStr j.publishedAt
  match parseIsoToMs parse iso with
  | none => none
  | some m => some ⟨m, iso.getD "", "publishedAt"⟩

/-- Models `isJobWithinUpdateWindow(source, jobRaw, nowMs)`. -/
def isJobWithinUpdateWindow (parse : String → Option Int) (source : String) (j : RawJob)
    (nowMs : Int) : Bool :=
  let cutoffMs := nowMs - UPDATE_WINDOW_MS
  if source = "greenhouse" then
    match greenhouseEffectiveTime parse j with
    | some eff => decide (cutoffMs ≤ eff.ms)
    | none => false
  else if source = "ashby" then
    match ashbyEffectiveTime parse j with
    | some eff => decide (cutoffMs ≤ eff.ms)
    | none => false
  else false

/-- Models `isoToTimestamp(iso).toMillis()`: parse the ISO string, falling back to
the current time on an invalid date. -/
def isoToTimestampMs (parse : String → Option Int) (iso : String) (nowMs : Int) : Int :=
  match parse iso with
  | some m => m
  | none => nowMs

/-- An injective rendering of the current time, modelling
`new Date().toISOString()` in the fallback branch. -/
def nowIso (nowMs : Int) : String := "epoch-ms:" ++ intToStr nowMs

/-- The `{ updatedAtIso, updatedAtTs, updatedAtSource }` triple stored on a
job; the `Timestamp` is modelled by its milliseconds. -/
structure UpdatedAtForStorage where
  updatedAtIso : String
  updatedAtMs : Int
  updatedAtSource : String
  deriving DecidableEq, Repr

/-- Models `computeUpdatedAtForStorage(source, ghLike, jobRawOriginalForRule)`.
Every call site passes the original raw job, so `orig || ghLike` is `orig`. -/
def computeUpdatedAtForStorage (parse : String → Option Int) (source : String) (orig : RawJob)
    (nowMs : Int) : UpdatedAtForStorage :=
  let ghCase : Option UpdatedAtForStorage :=
    if source = "greenhouse" then
      match greenhouseEffectiveTime parse orig with
      | some eff =>
        if eff.iso ≠ "" then some ⟨eff.iso, isoToTimestampMs parse eff.iso nowMs, eff.sourceField⟩
        else none
      | none => none
    else none
  let ashbyCase : Option UpdatedAtForStorage :=
    if source = "ashby" then
      match ashbyEffectiveTime parse orig with
      | some eff =>
        if eff.iso ≠ "" then some ⟨eff.iso, isoToTimestampMs parse eff.iso nowMs, eff.sourceField⟩
        else none
      | none => none
    else none
  match ghCase with
  | some r => r
  | none =>
    match ashbyCase with
    | some r => r
    | none => ⟨nowIso nowMs, nowMs, "fallback"⟩

/-! ## Feed source detection and company keys -/

/-- A feed as produced by `loadUserFeeds`. -/
structure Feed where
  id : String
  name : Option String := none
  url : Option String := none
  active : Bool := true
  source : Option String := none
  deriving DecidableEq, Repr

/-- Models `detectFeedSource(feedUrl)`. -/
def detectFeedSource (feedUrl : Option String) : String :=
  let u := jsLower (feedUrl.getD "")
  if containsStr u "boards-api.greenhouse.io" then "greenhouse"
  else if containsStr u "api.ashbyhq.com/posting-api/job-board" then "ashby"
  else "unknown"

/-- Everything after the first `://`, or `none` when the marker is absent
(modelling a `URL` constructor failure). -/
def afterScheme : List Char → Option (List Char)
  | ':' :: '/' :: '/' :: rest => some rest
  | _ :: rest => afterScheme rest
  | [] => none

/-- Split a character list on a separator character. -/
def splitChar (sep : Char) : List Char → List (List Char)
  | [] => [[]]
  | c :: rest =>
    if c = sep then [] :: splitChar sep rest
    else
      match splitChar sep rest with
      | [] => [[c]]
      | h :: t => (c :: h) :: t

/-- Models `new URL(u)`: the host together with
`pathname.split("/").filter(Boolean)`; `none` models a constructor failure. -/
def urlParts (url : String) : Option (String × List String) :=
  match afterScheme url.data with
  | none => none
  | some rest =>
    match splitChar '/' rest with
    | [] => none
    | host :: path => some (String.mk host, (path.map String.mk).filter (fun s => s ≠ ""))

/-- Models `parts[parts.indexOf(marker) + 1]` when the marker is found and a next
segment exists. -/
def segAfter : List String → String → Option String
  | [], _ => none
  | a :: rest, marker =>
    if a = marker then rest.head? else segAfter rest marker

/-- Models `inferGreenhouseCompanyKeyFromUrl(feedUrl)`: the path segment after
`boards`, lower-cased. -/
def inferGreenhouseCompanyKeyFromUrl (feedUrl : String) : Option String :=
  match urlParts feedUrl with
  | some (_, parts) => (segAfter parts "boards").map jsLower
  | none => none

/-- Models `inferAshbyCompanyKeyFromUrl(feedUrl)`: the path segment after
`job-board`, lower-cased. -/
def inferAshbyCompanyKeyFromUrl (feedUrl : String) : Option String :=
  match urlParts feedUrl with
  | some (_, parts) => (segAfter parts "job-board").map jsLower
  | none => none

/-- Models `feedCompanyKey(feed)`. -/
def feedCompanyKey (feed : Feed) : String :=
  let source := detectFeedSource feed.url
  if source = "greenhouse" then
    (feed.url.bind inferGreenhouseCompanyKeyFromUrl).getD feed.id
  else if source = "ashby" then
    (feed.url.bind inferAshbyCompanyKeyFromUrl).getD feed.id
  else
    match feed.url.bind urlParts with
    | some (host, _) =>
      jsLower (String.mk (host.data.map fun c => if c = '.' then '_' else c) ++ "_" ++ feed.id)
    | none => feed.id

/-- The first character upper-cased, as in
`key.charAt(0).toUpperCase() + key.slice(1)`. -/
def jsCapitalize (s : String) : String :=
  match s.data with
  | [] => ""
  | c :: cs => String.mk (c.toUpper :: cs)

/-- Models `resolveCompanyName(feed, jobRaw, source)`. -/
def resolveCompanyName (feed : Feed) (gh : RawJob) (source : String) : String :=
  let fromFeed := jsTrim (feed.name.getD "")
  if fromFeed ≠ "" then fromFeed
  else
    let fromJob := jsTrim (gh.company_name.getD "")
    if fromJob ≠ "" then fromJob
    else
      let last := if feedCompanyKey feed ≠ "" then feedCompanyKey feed else "Unknown"
      if source = "ashby" then
        let key :=
          match feed.url.bind inferAshbyCompanyKeyFromUrl with
          | some k => k
          | none => feedCompanyKey feed
        if key ≠ "" then jsCapitalize key else last
      else last

/-! ## Ashby → greenhouse-like shim and job normalization -/

/-- Models `toGreenhouseLikeJob(source, jobRaw)`. -/
def toGreenhouseLikeJob (source : String) (j : RawJob) : RawJob :=
  if source = "greenhouse" then j
  else
    { id := j.id
      title := orNullStr j.title
      absolute_url := orNullStr j.jobUrl
      apply_url := orNullStr j.applyUrl
      updated_at := orNullStr j.publishedAt
      first_published := orNullStr j.publishedAt
      company_name := none
      internal_job_id := none
      requisition_id := none
      language := none
      location_name := some (j.location.getD "")
      location := none
      publishedAt := none
      jobUrl := none
      applyUrl := none
      isRemote := some (decide (j.isRemote = some true))
      ashbyIsRemote := j.isRemote }

/-- A stored job document.  `updatedAtTs` is modelled by `updatedAtMs`;
server timestamps (`lastSeenAt`, `lastIngestedAt`, `createdAt`,
`firstSeenAt`) are the write-time milliseconds.  The cleaned HTML body and
the metadata map are deterministic functions of the posting not touched by
any claim and are omitted. -/
structure JobDoc where
  uid : String
  source : String
  companyKey : String
  companyName : String
  locationName : String
  absolute_url : Option String
  applyUrl : Option String
  title : Option String
  updatedAtIso : String
  updatedAtMs : Int
  updatedAtSource : String
  stateCodes : List String
  isRemote : Bool
  jobId : Nat
  internalJobId : Option Nat
  requisitionId : Option String
  language : Option String
  firstPublishedIso : Option String
  saved : Bool
  lastSeenAt : Int
  lastIngestedAt : Int
  createdAt : Option Int
  firstSeenAt : Option Int
  deriving DecidableEq, Repr

/-- Models `normalizeJob(uid, feed, jobRawGreenhouseLike, source, jobRawOriginalForRule)`
at write time `nowMs`.  The note in the source reads: do not preserve saved,
always write saved=false. -/
def normalizeJob (parse : String → Option Int) (uid : String) (feed : Feed) (gh : RawJob)
    (source : String) (orig : RawJob) (nowMs : Int) : JobDoc :=
  let locationName := gh.location_name.getD ""
  let u := computeUpdatedAtForStorage parse source orig nowMs
  let explicitRemote := decide (gh.isRemote = some true) || decide (gh.ashbyIsRemote = some true)
  let computedRemote := isRemoteLocation locationName || decide (locationName = "")
  { uid := uid
    source := source
    companyKey := feedCompanyKey feed
    companyName := resolveCompanyName feed gh source
    locationName := if locationName = "" then "Remote" else locationName
    absolute_url := orNullStr gh.absolute_url
    applyUrl := orNullStr gh.apply_url
    title := orNullStr gh.title
    updatedAtIso := u.updatedAtIso
    updatedAtMs := u.updatedAtMs
    updatedAtSource := u.updatedAtSource
    stateCodes := extractStateCodes locationName
    isRemote := explicitRemote || computedRemote
    jobId := gh.id
    internalJobId := gh.internal_job_id
    requisitionId := gh.requisition_id
    language := orNullStr gh.language
    firstPublishedIso := orNullStr gh.first_published
    saved := false
    lastSeenAt := nowMs
    lastIngestedAt := nowMs
    createdAt := none
    firstSeenAt := none }

/-! ## The job store and the read-free upsert engine -/

/-- The per-tenant `jobs` collection, abstracted as a keyed document store:
document id → document. -/
abbrev JobStore := String → Option JobDoc

/-- An empty collection. -/
def emptyStore : JobStore := fun _ => none

/-- Look a document up by id. -/
def storeGet (s : JobStore) (k : String) : Option JobDoc := s k

/-- Write a document at an id. -/
def storeSet (s : JobStore) (k : String) (d : JobDoc) : JobStore :=
  fun q => if q = k then some d else s q

/-- Models `set(ref, normalized, { merge: true })` over an existing document:
every field present in `normalized` overwrites; `createdAt`/`firstSeenAt`
are absent from `normalized` and survive. -/
def mergeDoc (old norm : JobDoc) : JobDoc :=
  { norm with createdAt := old.createdAt, firstSeenAt := old.firstSeenAt }

/-- Models `jobDocId(companyKey, jobId)`. -/
def jobDocId (companyKey : String) (jobId : Nat) : String :=
  companyKey ++ "__" ++ natToStr jobId

/-- Models `upsertJobNoRead`: try an atomic `create` (fails with `ALREADY_EXISTS`
when the doc is present) and count `created`; on existence fall back to a
merge write and count `updated`. -/
def upsertJobNoRead (store : JobStore) (docId : String) (normalized : JobDoc) (nowMs : Int) :
    JobStore × Nat × Nat :=
  match storeGet store docId with
  | none =>
    (storeSet store docId
      { normalized with createdAt := some nowMs, firstSeenAt := some nowMs }, 1, 0)
  | some old => (storeSet store docId (mergeDoc old normalized), 0, 1)

/-! ## Per-feed processing -/

/-- Models `feed.source || detectFeedSource(feed.url)`. -/
def feedSourceOf (feed : Feed) : String :=
  (orNullStr feed.source).getD (detectFeedSource feed.url)

/-- The location text read by the filter step:
`source === "greenhouse" ? j?.location?.name : j?.location`; `""` models a
falsy value. -/
def rawLocOf (source : String) (j : RawJob) : String :=
  if source = "greenhouse" then j.location_name.getD "" else j.location.getD ""

/-- The postings that pass the recency gate and the location rules:
`isJobWithinUpdateWindow(...) && (!loc || shouldKeepJobByLocation(loc, j))`. -/
def keptPostings (parse : String → Option Int) (source : String) (jobsRaw : List RawJob)
    (nowMs : Int) : List RawJob :=
  jobsRaw.filter fun j =>
    isJobWithinUpdateWindow parse source j nowMs
    && (decide (rawLocOf source j = "")
        || shouldKeepJobByLocation (rawLocOf source j) j.isRemote)

/-- The per-feed summary `{ processed, createdCount, updatedCount }`. -/
structure FeedSummary where
  processed : Nat
  createdCount : Nat
  updatedCount : Nat
  deriving DecidableEq, Repr

/-- The write loop of `processOneFeed` over the kept postings (the writes
are independent per posting; the bounded write concurrency is modelled by
sequencing). -/
def ingestList (parse : String → Option Int) (uid : String) (feed : Feed) (source : String)
    (nowMs : Int) : List RawJob → JobStore → JobStore × Nat × Nat
  | [], store => (store, 0, 0)
  | j :: rest, store =>
    let gh := toGreenhouseLikeJob source j
    let normalized := normalizeJob parse uid feed gh source j nowMs
    let res := upsertJobNoRead store (jobDocId (feedCompanyKey feed) gh.id) normalized nowMs
    let next := ingestList parse uid feed source nowMs rest res.1
    (next.1, res.2.1 + next.2.1, res.2.2 + next.2.2)

/-- Models `processOneFeed(uid, feed, bulkWriter)` applied to an already-fetched
list of raw postings. -/
def processOneFeed (parse : String → Option Int) (uid : String) (feed : Feed)
    (jobsRaw : List RawJob) (nowMs : Int) (store : JobStore) : JobStore × FeedSummary :=
  let source := feedSourceOf feed
  let kept := keptPostings parse source jobsRaw nowMs
  let res := ingestList parse uid feed source nowMs kept store
  (res.1, ⟨kept.length, res.2.1, res.2.2⟩)

/-! ## Feed loading -/

/-- The raw data of one `users/{uid}/feeds/{feedId}` document. -/
structure FeedDocData where
  company : Option String := none
  name : Option String := none
  url : Option String := none
  active : Option Bool := none
  source : Option String := none
  archivedAt : Option Int := none
  deriving DecidableEq, Repr

/-- Models `a || b || null` on optional JS strings. -/
def jsOrStr (a b : Option String) : Option String :=
  match orNullStr a with
  | some s => some s
  | none => orNullStr b

/-- Models `loadUserFeeds(uid)` applied to the feed documents of the tenant.
Maps each doc to `{ id, name: company || name, url, active: active !== false,
source }` and keeps those with `url && active`.  The `archivedAt` field is
never consulted. -/
def loadUserFeeds (docs : List (String × FeedDocData)) : List Feed :=
  (docs.map fun d =>
    ({ id := d.1
       name := jsOrStr d.2.company d.2.name
       url := orNullStr d.2.url
       active := d.2.active ≠ some false
       source := orNullStr d.2.source } : Feed))
  |>.filter fun f => decide (f.url ≠ none) && f.active

/-! ## Run accounting (`processUserFeeds`) -/

/-- Outcome of one feed task inside the worker: the summary on success, the
error message when `processOneFeed` threw.  Each outcome is paired with the
feed URL for sampling. -/
abbrev FeedOutcome := Except String FeedSummary

/-- Source constant `MAX_ERROR_SAMPLES`. -/
def MAX_ERROR_SAMPLES : Nat := 10

/-- Terminal fields persisted on the `fetchRuns` document by the main body
of `processUserFeeds`. -/
structure RunRecord where
  status : String
  durationMs : Int
  processed : Nat
  createdCount : Nat
  updatedCount : Nat
  errorsCount : Nat
  errorSamples : List (String × String)
  deriving DecidableEq, Repr

/-- Per-feed accumulation loop of `processUserFeeds`: a success adds its
summary to the running totals; a failure increments `errorsCount` and is
sampled while fewer than `MAX_ERROR_SAMPLES` samples exist.  No failure
stops the loop. -/
def accumFeeds :
    List (String × FeedOutcome) → Nat × Nat × Nat → Nat → List (String × String) →
    (Nat × Nat × Nat) × Nat × List (String × String)
  | [], totals, errs, samples => (totals, errs, samples)
  | (_, .ok s) :: rest, (p, c, u), errs, samples =>
    accumFeeds rest (p + s.processed, c + s.createdCount, u + s.updatedCount) errs samples
  | (url, .error msg) :: rest, totals, errs, samples =>
    accumFeeds rest totals (errs + 1)
      (if samples.length < MAX_ERROR_SAMPLES then samples ++ [(url, msg)] else samples)

/-- Models `processUserFeeds(uid, runType, runId)` after every feed task has
settled: the terminal run record written by the main body. -/
def processUserFeeds (outcomes : List (String × FeedOutcome)) (startedAtMs finishedAtMs : Int) :
    RunRecord :=
  let r := accumFeeds outcomes (0, 0, 0) 0 []
  { status := if r.2.1 ≠ 0 then "done_with_errors" else "done"
    durationMs := finishedAtMs - startedAtMs
    processed := r.1.1
    createdCount := r.1.2.1
    updatedCount := r.1.2.2
    errorsCount := r.2.1
    errorSamples := r.2.2 }

/-! ## Fetch retry loop (`fetchJson`) -/

/-- Source constant `FETCH_RETRIES`. -/
def FETCH_RETRIES : Nat := 2

/-- Source constant `FETCH_RETRY_BASE_DELAY_MS`. -/
def FETCH_RETRY_BASE_DELAY_MS : Nat := 800

/-- Observable outcome of one `fetch` attempt: a 2xx response whose body
parses, a non-ok HTTP status, or a thrown error with its `name` and
`message`. -/
inductive FetchOutcome where
  | ok
  | httpErr (status : Nat)
  | netErr (nm : String) (msg : String)
  deriving DecidableEq, Repr

/-- Models `isRetryableHttpStatus(status)`. -/
def isRetryableHttpStatus (status : Nat) : Bool :=
  status == 408 || status == 425 || status == 429 || status == 500 || status == 502
  || status == 503 || status == 504

/-- Retry test of the catch branch: an `AbortError`, or a message matching
`/ECONNRESET|ETIMEDOUT|EAI_AGAIN|ENOTFOUND/i`. -/
def isRetryableNetError (nm msg : String) : Bool :=
  nm == "AbortError"
  || containsStr (jsUpper msg) "ECONNRESET" || containsStr (jsUpper msg) "ETIMEDOUT"
  || containsStr (jsUpper msg) "EAI_AGAIN" || containsStr (jsUpper msg) "ENOTFOUND"

/-- Backoff slept before retrying attempt `attempt`:
`FETCH_RETRY_BASE_DELAY_MS * Math.pow(2, attempt) + Math.floor(Math.random() * 250)`,
the random part abstracted by `jitter`. -/
def retryDelay (jitter : Nat → Nat) (attempt : Nat) : Nat :=
  FETCH_RETRY_BASE_DELAY_MS * 2 ^ attempt + jitter attempt

/-- Models the `while (attempt <= FETCH_RETRIES)` loop of `fetchJson`, the
retry budget given as `maxRetries`.  `resp i` is the outcome of attempt `i`.
Returns the result surfaced to the caller and the list of backoff delays
slept.  The fuel starts at `maxRetries + 1` and the `fuel = 0` exit models
the unreachable final `throw` after the loop. -/
def fetchLoop (maxRetries : Nat) (resp : Nat → FetchOutcome) (jitter : Nat → Nat) :
    Nat → Nat → Except String Unit × List Nat
  | _, 0 => (.error "Fetch failed after retries", [])
  | attempt, fuel + 1 =>
    match resp attempt with
    | .ok => (.ok (), [])
    | .httpErr s =>
      if isRetryableHttpStatus s && decide (attempt < maxRetries) then
        let rest := fetchLoop maxRetries resp jitter (attempt + 1) fuel
        (rest.1, retryDelay jitter attempt :: rest.2)
      else (.error ("HTTP " ++ natToStr s), [])
    | .netErr nm msg =>
      if isRetryableNetError nm msg && decide (attempt < maxRetries) then
        let rest := fetchLoop maxRetries resp jitter (attempt + 1) fuel
        (rest.1, retryDelay jitter attempt :: rest.2)
      else (.error (if nm == "AbortError" then "Timeout after 60000ms" else msg), [])

/-- Models `fetchJson(url)`: the loop with the source budget
`FETCH_RETRIES = 2`. -/
def fetchJson (resp : Nat → FetchOutcome) (jitter : Nat → Nat) :
    Except String Unit × List Nat :=
  fetchLoop FETCH_RETRIES resp jitter 0 (FETCH_RETRIES + 1)

/-- Modelled from the spec words of the claim: the identical loop but with a
budget of three retries, for comparison against the source behaviour. -/
def fetchJsonSpecThreeRetries (resp : Nat → FetchOutcome) (jitter : Nat → Nat) :
    Except String Unit × List Nat :=
  fetchLoop 3 resp jitter 0 4

/-- Whether the loop treats this outcome as retryable (budget aside). -/
def retryableOutcome : FetchOutcome → Bool
  | .ok => false
  | .httpErr s => isRetryableHttpStatus s
  | .netErr nm msg => isRetryableNetError nm msg

/-! ## Claim-side definitions

These definitions follow the words of the specification - not the source -
and are compared against the source functions above. -/

/-- Spec-side effective timestamp in milliseconds for a posting of a given
source. -/
def effectiveMs (parse : String → Option Int) (source : String) (j : RawJob) : Option Int :=
  if source = "greenhouse" then (greenhouseEffectiveTime parse j).map EffTime.ms
  else if source = "ashby" then (ashbyEffectiveTime parse j).map EffTime.ms
  else none

/-- Spec-side maximum of the candidate timestamps: the later of the two when
both parse, whichever parses when only one does, absent otherwise. -/
def specMaxCandidate : Option Int → Option Int → Option Int
  | some a, some b => some (max a b)
  | some a, none => some a
  | none, some b => some b
  | none, none => none

/-- Spec-side boundary for the claim wording "non-alphanumeric boundary" and
"standalone token": a missing neighbour or one that is not an ASCII letter
or digit. -/
def nonAlnumBoundary : Option Char → Bool
  | none => true
  | some c => !c.isAlphanum

/-- Claim rule: some `US_KEYWORDS` entry is a substring of the upper-cased
location text. -/
def ruleKeyword (locationText : String) : Bool :=
  US_KEYWORDS.any fun kw => containsStr (jsUpper locationText) kw

/-- Claim rule (as stated): a major US city occurs at a non-alphanumeric
boundary. -/
def ruleCityNonAlnum (locationText : String) : Bool :=
  MAJOR_US_CITIES.any fun city =>
    occursWithStr nonAlnumBoundary nonAlnumBoundary (jsUpper locationText) city

/-- Claim rule (as stated): a US state code occurs as a standalone token,
with non-alphanumeric neighbours. -/
def ruleStateNonAlnum (locationText : String) : Bool :=
  US_STATE_CODES.any fun code =>
    occursWithStr nonAlnumBoundary nonAlnumBoundary (jsUpper locationText) code

/-- Claim rule: the text mentions remote and either carries a US-remote
phrasing (which bypasses the exclusion list) or contains no excluded-country
substring. -/
def ruleRemote (locationText : String) : Bool :=
  let s := jsLower (jsTrim locationText)
  containsStr s "remote"
  && (containsStr s "us-remote" || containsStr s "remote us" || containsStr s "remote - us"
      || !(REMOTE_EXCLUDE_SUBSTRINGS.any fun bad => containsStr s bad))

/-- Keep-predicate of claim C4 exactly as stated: explicit remote flag, or
one of the four textual rules. -/
def keepByClaimRules (locationText : String) (rawIsRemote : Option Bool) : Bool :=
  decide (rawIsRemote = some true) || ruleKeyword locationText
  || ruleCityNonAlnum locationText || ruleStateNonAlnum locationText
  || ruleRemote locationText

/-- Amended rule: a major US city delimited on the left by start of string,
comma, whitespace, slash, bullet, hyphen or pipe, and on the right by end of
string, whitespace, comma, semicolon, slash, bullet, hyphen or pipe. -/
def ruleCityDelim (locationText : String) : Bool :=
  MAJOR_US_CITIES.any fun city =>
    occursWithStr leftDelimOk rightDelimOk (jsUpper locationText) city

/-- Amended rule: a US state code with the same delimiter classes as
`ruleCityDelim`. -/
def ruleStateDelim (locationText : String) : Bool :=
  US_STATE_CODES.any fun code =>
    occursWithStr leftDelimOk rightDelimOk (jsUpper locationText) code

/-- Amended rule: the standalone word `US` at regex word boundaries. -/
def ruleWordUS (locationText : String) : Bool :=
  occursWithStr wordBoundaryOk wordBoundaryOk (jsUpper locationText) "US"

/-- Amended rule: the substring `U.S.` (subsumed by `ruleKeyword`; kept
because the source tests it separately). -/
def ruleUSDotted (locationText : String) : Bool :=
  containsStr (jsUpper locationText) "U.S."

/-- Keep-predicate of the amended claim C4. -/
def keepByAmendedRules (locationText : String) (rawIsRemote : Option Bool) : Bool :=
  decide (rawIsRemote = some true) || ruleKeyword locationText
  || ruleCityDelim locationText || ruleStateDelim locationText
  || ruleWordUS locationText || ruleUSDotted locationText
  || ruleRemote locationText

/-- Spec-side list of summaries of the feeds that succeeded. -/
def okSummaries (outcomes : List (String × FeedOutcome)) : List FeedSummary :=
  outcomes.filterMap fun o =>
    match o.2 with
    | .ok s => some s
    | .error _ => none

/-- Spec-side list of `(url, message)` pairs of the feeds that failed, in
order. -/
def errEntries (outcomes : List (String × FeedOutcome)) : List (String × String) :=
  outcomes.filterMap fun o =>
    match o.2 with
    | .ok _ => none
    | .error m => some (o.1, m)

/-- Drop the write-time housekeeping fields (`lastSeenAt`, `lastIngestedAt`)
and the creation stamps, leaving the content a single write determines. -/
def stripHK (d : JobDoc) : JobDoc :=
  { d with lastSeenAt := 0, lastIngestedAt := 0, createdAt := none, firstSeenAt := none }

/-- Drop only the write-time fields (`lastSeenAt`, `lastIngestedAt`); the
creation stamps are kept. -/
def coreOf (d : JobDoc) : JobDoc :=
  { d with lastSeenAt := 0, lastIngestedAt := 0 }

/-- Two optional documents agree on every field except the write-time
housekeeping fields. -/
def coreEq : Option JobDoc → Option JobDoc → Prop
  | none, none => True
  | some a, some b => coreOf a = coreOf b
  | _, _ => False

/-- Document id of a raw posting processed for a feed. -/
def docIdOf (feed : Feed) (source : String) (j : RawJob) : String :=
  jobDocId (feedCompanyKey feed) (toGreenhouseLikeJob source j).id

/-- Normalized document a raw posting produces at a write time. -/
def normOf (parse : String → Option Int) (uid : String) (feed : Feed) (source : String)
    (nowMs : Int) (j : RawJob) : JobDoc :=
  normalizeJob parse uid feed (toGreenhouseLikeJob source j) source j nowMs

/-! ## Concrete fixtures used by witnesses and counterexamples -/

/-- Sample model of `Date.parse` used in concrete runs: three known
timestamp strings parse, everything else is `NaN`. -/
def sampleParse : String → Option Int := fun s =>
  if s = "T100" then some 100
  else if s = "T50" then some 50
  else if s = "T3000000" then some 3000000
  else none

/-- Sample greenhouse feed. -/
def sampleFeed : Feed :=
  { id := "f1", name := some "Acme",
    url := some "https://boards-api.greenhouse.io/v1/boards/acme/jobs" }

/-- Sample posting with effective timestamp 3000000 ms. -/
def sampleJob : RawJob :=
  { id := 7, title := some "Eng", updated_at := some "T3000000",
    location_name := some "New York, NY" }

/-- Sample posting with effective timestamp 100 ms. -/
def sampleJob100 : RawJob := { sampleJob with updated_at := some "T100" }

/-- Sample posting with effective timestamp 50 ms. -/
def sampleJob50 : RawJob := { sampleJob with updated_at := some "T50" }

/-- Sample posting with no location text. -/
def sampleJobNoLoc : RawJob := { id := 9, updated_at := some "T100" }

/-- Normalized document of `sampleJob100` at write time 3600000. -/
def sampleNorm100 : JobDoc := normOf sampleParse "u" sampleFeed "greenhouse" 3600000 sampleJob100

/-- Document of `sampleJob100` with the bookmark bit set by the UI
side-channel. -/
def bookmarkedDoc : JobDoc :=
  { sampleNorm100 with saved := true, createdAt := some 3600000, firstSeenAt := some 3600000 }

/-- A store holding only `bookmarkedDoc`. -/
def bookmarkedStore : JobStore := fun k =>
  if k = "acme__7" then some bookmarkedDoc else none

/-- Sample fetch-outcome sequence: three retryable 503 responses, then a
success. -/
def sampleResp503 : Nat → FetchOutcome := fun i => if i < 3 then .httpErr 503 else .ok

/-- Sample fetch-outcome sequence: one retryable 503 response, then a
success. -/
def sampleResp1 : Nat → FetchOutcome := fun i => if i = 0 then .httpErr 503 else .ok

/-- Zero jitter. -/
def zeroJitter : Nat → Nat := fun _ => 0

/-! ## Store and upsert lemmas -/

lemma storeGet_storeSet_self (s : JobStore) (k : String) (d : JobDoc) :
    storeGet (storeSet s k d) k = some d := by
  simp [storeGet, storeSet]

lemma storeGet_storeSet_ne (s : JobStore) (k q : String) (d : JobDoc) (h : q ≠ k) :
    storeGet (storeSet s k d) q = storeGet s q := by
  simp [storeGet, storeSet, h]

lemma stripHK_mergeDoc (old n : JobDoc) : stripHK (mergeDoc old n) = stripHK n := rfl

lemma stripHK_create (n : JobDoc) (t : Int) :
    stripHK { n with createdAt := some t, firstSeenAt := some t } = stripHK n := rfl

/-- The write of `upsertJobNoRead` at its own key: the document is present
afterwards and carries exactly the content of `normalized`. -/
lemma upsert_at_key (s : JobStore) (id : String) (n : JobDoc) (t : Int) :
    ∃ d, (upsertJobNoRead s id n t).1 id = some d ∧ stripHK d = stripHK n := by
  cases hs : storeGet s id with
  | none =>
    simp only [upsertJobNoRead, hs]
    exact ⟨_, storeGet_storeSet_self s id _, stripHK_create n t⟩
  | some old =>
    simp only [upsertJobNoRead, hs]
    exact ⟨_, storeGet_storeSet_self s id _, stripHK_mergeDoc old n⟩

/-- Keys other than the written one are untouched by `upsertJobNoRead`. -/
lemma upsert_other (s : JobStore) (id : String) (n : JobDoc) (t : Int) (k : String)
    (h : id ≠ k) : (upsertJobNoRead s id n t).1 k = s k := by
  cases hs : storeGet s id <;>
    simp only [upsertJobNoRead, hs] <;>
    exact storeGet_storeSet_ne s id k _ (Ne.symm h)

/-- Presence of a document is preserved by any upsert. -/
lemma upsert_pres_some (s : JobStore) (id : String) (n : JobDoc) (t : Int) (k : String)
    (d0 : JobDoc) (h : s k = some d0) : ∃ d, (upsertJobNoRead s id n t).1 k = some d := by
  by_cases hk : k = id
  · subst hk
    obtain ⟨d, hd, -⟩ := upsert_at_key s k n t
    exact ⟨d, hd⟩
  · exact ⟨d0, (upsert_other s id n t k (fun he => hk he.symm)).trans h⟩

/-- On an existing key the upsert takes the merge branch and counts one
`updated`. -/
lemma upsert_merge_of_present (s : JobStore) (id : String) (n : JobDoc) (t : Int)
    (old : JobDoc) (h : s id = some old) :
    upsertJobNoRead s id n t = (storeSet s id (mergeDoc old n), 0, 1) := by
  unfold upsertJobNoRead
  rw [show storeGet s id = some old from h]

/-! ## Write-loop lemmas -/

lemma ingestList_cons (parse : String → Option Int) (uid : String) (feed : Feed)
    (source : String) (now : Int) (j : RawJob) (rest : List RawJob) (s : JobStore) :
    ingestList parse uid feed source now (j :: rest) s =
      ((ingestList parse uid feed source now rest
          (upsertJobNoRead s (docIdOf feed source j)
            (normOf parse uid feed source now j) now).1).1,
        (upsertJobNoRead s (docIdOf feed source j)
            (normOf parse uid feed source now j) now).2.1
          + (ingestList parse uid feed source now rest
              (upsertJobNoRead s (docIdOf feed source j)
                (normOf parse uid feed source now j) now).1).2.1,
        (upsertJobNoRead s (docIdOf feed source j)
            (normOf parse uid feed source now j) now).2.2
          + (ingestList parse uid feed source now rest
              (upsertJobNoRead s (docIdOf feed source j)
                (normOf parse uid feed source now j) now).1).2.2) := rfl

/-- A key not written by any posting of the list is untouched by the write
loop. -/
lemma ingestList_untouched (parse : String → Option Int) (uid : String) (feed : Feed)
    (source : String) (now : Int) (ks : List RawJob) (s : JobStore) (k : String)
    (hk : ∀ j ∈ ks, docIdOf feed source j ≠ k) :
    (ingestList parse uid feed source now ks s).1 k = s k := by
  induction ks generalizing s with
  | nil => rfl
  | cons j rest ih =>
    rw [ingestList_cons]
    rw [ih _ (fun j' h' => hk j' (List.mem_cons_of_mem _ h'))]
    exact upsert_other _ _ _ _ _ (hk j (List.mem_cons_self _ _))

/-- Presence of a document is preserved by the write loop. -/
lemma ingestList_pres_some (parse : String → Option Int) (uid : String) (feed : Feed)
    (source : String) (now : Int) (ks : List RawJob) (s : JobStore) (k : String)
    (d0 : JobDoc) (h : s k = some d0) :
    ∃ d, (ingestList parse uid feed source now ks s).1 k = some d := by
  induction ks generalizing s d0 with
  | nil => exact ⟨d0, h⟩
  | cons j rest ih =>
    rw [ingestList_cons]
    obtain ⟨d1, h1⟩ := upsert_pres_some s (docIdOf feed source j)
      (normOf parse uid feed source now j) now k d0 h
    exact ih _ d1 h1

/-- When every posting of the list already has its document present, the
loop performs only merge writes: `created = 0` and `updated` counts every
posting. -/
lemma ingestList_counts_present (parse : String → Option Int) (uid : String) (feed : Feed)
    (source : String) (now : Int) (ks : List RawJob) (s : JobStore)
    (hp : ∀ j ∈ ks, ∃ d, s (docIdOf feed source j) = some d) :
    (ingestList parse uid feed source now ks s).2.1 = 0
    ∧ (ingestList parse uid feed source now ks s).2.2 = ks.length := by
  induction ks generalizing s with
  | nil => exact ⟨rfl, rfl⟩
  | cons j rest ih =>
    rw [ingestList_cons]
    obtain ⟨old, hold⟩ := hp j (List.mem_cons_self _ _)
    rw [upsert_merge_of_present s _ _ now old hold]
    have hp' : ∀ j' ∈ rest, ∃ d,
        storeSet s (docIdOf feed source j) (mergeDoc old (normOf parse uid feed source now j))
          (docIdOf feed source j') = some d := by
      intro j' h'
      obtain ⟨d', hd'⟩ := hp j' (List.mem_cons_of_mem _ h')
      by_cases he : docIdOf feed source j' = docIdOf feed source j
      · refine ⟨mergeDoc old (normOf parse uid feed source now j), ?_⟩
        simp [storeSet, he]
      · exact ⟨d', by simp [storeSet, he, hd']⟩
    obtain ⟨hc, hu⟩ := ih _ hp'
    refine ⟨by simp [hc], ?_⟩
    simp only [hu, List.length_cons]
    omega

/-- After the write loop, each posting of a duplicate-free list has its
document present with exactly the content of its normalized form. -/
lemma ingestList_doc_after (parse : String → Option Int) (uid : String) (feed : Feed)
    (source : String) (now : Int) (ks : List RawJob) (s : JobStore)
    (hnd : (ks.map (docIdOf feed source)).Nodup) (j : RawJob) (hj : j ∈ ks) :
    ∃ d, (ingestList parse uid feed source now ks s).1 (docIdOf feed source j) = some d
      ∧ stripHK d = stripHK (normOf parse uid feed source now j) := by
  induction ks generalizing s with
  | nil => cases hj
  | cons j0 rest ih =>
    rw [ingestList_cons]
    rcases List.mem_cons.mp hj with rfl | hmem
    · have hni : ∀ j' ∈ rest, docIdOf feed source j' ≠ docIdOf feed source j := by
        intro j' h' he
        exact (List.nodup_cons.mp hnd).1 (he ▸ List.mem_map_of_mem _ h')
      rw [ingestList_untouched _ _ _ _ _ _ _ _ hni]
      exact upsert_at_key s _ _ now
    · exact ih _ (List.nodup_cons.mp hnd).2 hmem

/-! ## Core-content equivalence of stores -/

lemma coreEq_refl (o : Option JobDoc) : coreEq o o := by
  cases o <;> simp [coreEq]

lemma coreEq_trans {a b c : Option JobDoc} (h1 : coreEq a b) (h2 : coreEq b c) : coreEq a c := by
  cases a <;> cases b <;> cases c <;> simp_all [coreEq]

/-- Merging new content whose stripped form matches the stored document
leaves the core content (everything except the write-time fields)
unchanged. -/
lemma coreOf_merge_of_stripHK (d n : JobDoc) (h : stripHK d = stripHK n) :
    coreOf (mergeDoc d n) = coreOf d := by
  cases d
  cases n
  simp only [stripHK, JobDoc.mk.injEq] at h
  simp only [coreOf, mergeDoc, JobDoc.mk.injEq]
  simp_all

/-- Second pass of the write loop over a duplicate-free list whose documents
are all present with matching stripped content: every write is an `updated`
merge and the store keeps its core content at every key. -/
lemma ingestList_second (parse : String → Option Int) (uid : String) (feed : Feed)
    (source : String) (now : Int) (ks : List RawJob) (s : JobStore)
    (hnd : (ks.map (docIdOf feed source)).Nodup)
    (hp : ∀ j ∈ ks, ∃ d, s (docIdOf feed source j) = some d
            ∧ stripHK d = stripHK (normOf parse uid feed source now j)) :
    (ingestList parse uid feed source now ks s).2.1 = 0
    ∧ (ingestList parse uid feed source now ks s).2.2 = ks.length
    ∧ ∀ k, coreEq ((ingestList parse uid feed source now ks s).1 k) (s k) := by
  induction ks generalizing s with
  | nil => exact ⟨rfl, rfl, fun k => coreEq_refl _⟩
  | cons j rest ih =>
    rw [ingestList_cons]
    obtain ⟨d, hd, hstrip⟩ := hp j (List.mem_cons_self _ _)
    rw [upsert_merge_of_present s _ _ now d hd]
    have hp' : ∀ j' ∈ rest, ∃ d',
        storeSet s (docIdOf feed source j) (mergeDoc d (normOf parse uid feed source now j))
          (docIdOf feed source j') = some d'
        ∧ stripHK d' = stripHK (normOf parse uid feed source now j') := by
      intro j' h'
      have hne : docIdOf feed source j' ≠ docIdOf feed source j := by
        intro he
        exact (List.nodup_cons.mp hnd).1 (he ▸ List.mem_map_of_mem _ h')
      obtain ⟨d', hd', hs'⟩ := hp j' (List.mem_cons_of_mem _ h')
      exact ⟨d', by simp [storeSet, hne, hd'], hs'⟩
    obtain ⟨hc, hu, hcore⟩ := ih _ ((List.nodup_cons.mp hnd).2) hp'
    refine ⟨by simp [hc], ?_, ?_⟩
    · simp only [hu, List.length_cons]
      omega
    intro k
    refine coreEq_trans (hcore k) ?_
    by_cases hk : k = docIdOf feed source j
    · subst hk
      rw [show storeSet s (docIdOf feed source j)
              (mergeDoc d (normOf parse uid feed source now j)) (docIdOf feed source j)
            = some (mergeDoc d (normOf parse uid feed source now j)) by simp [storeSet]]
      rw [hd]
      exact coreOf_merge_of_stripHK d _ hstrip
    · rw [show storeSet s (docIdOf feed source j)
            (mergeDoc d (normOf parse uid feed source now j)) k = s k by simp [storeSet, hk]]
      exact coreEq_refl _

/-! ## Timestamp lemmas -/

lemma parseIsoToMs_some_inv (parse : String → Option Int) (iso : Option String) (m : Int)
    (h : parseIsoToMs parse iso = some m) :
    ∃ s, iso = some s ∧ s ≠ "" ∧ parse s = some m := by
  cases iso with
  | none => simp [parseIsoToMs] at h
  | some s =>
    by_cases hs : s = "" <;> simp [parseIsoToMs, hs] at h
    exact ⟨s, rfl, hs, h⟩

/-- A greenhouse effective time always carries a non-empty ISO string that
parses back to its milliseconds. -/
lemma greenhouseEffectiveTime_inv (parse : String → Option Int) (j : RawJob) (e : EffTime)
    (h : greenhouseEffectiveTime parse j = some e) :
    e.iso ≠ "" ∧ parse e.iso = some e.ms := by
  unfold greenhouseEffectiveTime at h
  cases hu : parseIsoToMs parse (orNullStr j.updated_at) with
  | none =>
    cases hf : parseIsoToMs parse (orNullStr j.first_published) with
    | none => simp [hu, hf] at h
    | some f =>
      obtain ⟨sf, hsf, hne, hp⟩ := parseIsoToMs_some_inv parse _ f hf
      simp only [hu, hf] at h
      cases h
      simpa [hsf] using ⟨hne, hp⟩
  | some u =>
    obtain ⟨su, hsu, hneu, hpu⟩ := parseIsoToMs_some_inv parse _ u hu
    cases hf : parseIsoToMs parse (orNullStr j.first_published) with
    | none =>
      simp only [hu, hf] at h
      cases h
      simpa [hsu] using ⟨hneu, hpu⟩
    | some f =>
      obtain ⟨sf, hsf, hnef, hpf⟩ := parseIsoToMs_some_inv parse _ f hf
      simp only [hu, hf] at h
      by_cases huf : u ≥ f
      · rw [if_pos huf] at h
        cases h
        simpa [hsu] using ⟨hneu, hpu⟩
      · rw [if_neg huf] at h
        cases h
        simpa [hsf] using ⟨hnef, hpf⟩

/-- An ashby effective time always carries a non-empty ISO string that
parses back to its milliseconds. -/
lemma ashbyEffectiveTime_inv (parse : String → Option Int) (j : RawJob) (e : EffTime)
    (h : ashbyEffectiveTime parse j = some e) :
    e.iso ≠ "" ∧ parse e.iso = some e.ms := by
  unfold ashbyEffectiveTime at h
  cases hp : parseIsoToMs parse (orNullStr j.publishedAt) with
  | none => simp [hp] at h
  | some m =>
    obtain ⟨s, hs, hne, hps⟩ := parseIsoToMs_some_inv parse _ m hp
    simp only [hp] at h
    cases h
    simpa [hs] using ⟨hne, hps⟩

/-- Once a posting passes the recency gate at any time, the stored
effective-time triple does not depend on the write time. -/
lemma computeUpdatedAt_time_free (parse : String → Option Int) (source : String) (j : RawJob)
    (t0 t1 t2 : Int) (hw : isJobWithinUpdateWindow parse source j t0 = true) :
    computeUpdatedAtForStorage parse source j t1 = computeUpdatedAtForStorage parse source j t2 := by
  unfold isJobWithinUpdateWindow at hw
  by_cases hg : source = "greenhouse"
  · rw [if_pos hg] at hw
    cases he : greenhouseEffectiveTime parse j with
    | none => rw [he] at hw; exact absurd hw (by simp)
    | some e =>
      obtain ⟨hne, hp⟩ := greenhouseEffectiveTime_inv parse j e he
      unfold computeUpdatedAtForStorage
      simp [hg, he, hne, isoToTimestampMs, hp]
  · by_cases ha : source = "ashby"
    · rw [if_neg hg, if_pos ha] at hw
      cases he : ashbyEffectiveTime parse j with
      | none => rw [he] at hw; exact absurd hw (by simp)
      | some e =>
        obtain ⟨hne, hp⟩ := ashbyEffectiveTime_inv parse j e he
        unfold computeUpdatedAtForStorage
        simp [hg, ha, he, hne, isoToTimestampMs, hp]
    · rw [if_neg hg, if_neg ha] at hw
      exact absurd hw (by simp)

/-- Once a posting passes the recency gate, its normalized document does not
depend on the write time except through the housekeeping fields. -/
lemma stripHK_norm_time_free (parse : String → Option Int) (uid : String) (feed : Feed)
    (source : String) (j : RawJob) (t0 t1 t2 : Int)
    (hw : isJobWithinUpdateWindow parse source j t0 = true) :
    stripHK (normOf parse uid feed source t1 j) = stripHK (normOf parse uid feed source t2 j) := by
  unfold normOf normalizeJob stripHK
  rw [computeUpdatedAt_time_free parse source j t0 t1 t2 hw]

/-- The recency gate in terms of the spec-side effective timestamp. -/
lemma window_iff_eff (parse : String → Option Int) (source : String) (j : RawJob) (now : Int) :
    isJobWithinUpdateWindow parse source j now = true
    ↔ ∃ m, effectiveMs parse source j = some m ∧ now - UPDATE_WINDOW_MS ≤ m := by
  unfold isJobWithinUpdateWindow effectiveMs
  by_cases hg : source = "greenhouse"
  · cases he : greenhouseEffectiveTime parse j <;> simp [hg, he]
  · by_cases ha : source = "ashby"
    · cases he : ashbyEffectiveTime parse j <;> simp [hg, ha, he]
    · simp [hg, ha]

/-- Membership in the kept list implies the recency gate passed. -/
lemma kept_window (parse : String → Option Int) (source : String) (jobsRaw : List RawJob)
    (now : Int) (j : RawJob) (h : j ∈ keptPostings parse source jobsRaw now) :
    isJobWithinUpdateWindow parse source j now = true := by
  unfold keptPostings at h
  rw [List.mem_filter] at h
  have h2 := h.2
  simp only [Bool.and_eq_true] at h2
  exact h2.1

/-! ## Location-filter decomposition lemmas -/

/-- For a non-empty location text, `isUSLocation` is the disjunction of the
keyword, delimiter-bounded city, delimiter-bounded state, standalone-US and
dotted-US rules. -/
lemma isUSLocation_eq_rules (t : String) (h : t ≠ "") :
    isUSLocation t
      = (ruleKeyword t || ruleCityDelim t || ruleStateDelim t || ruleWordUS t
         || ruleUSDotted t) := by
  unfold isUSLocation ruleKeyword ruleCityDelim ruleStateDelim ruleWordUS ruleUSDotted
  rw [if_neg h]
  cases h1 : US_KEYWORDS.any fun kw => containsStr (jsUpper t) kw <;>
    cases h2 : MAJOR_US_CITIES.any fun city =>
        occursWithStr leftDelimOk rightDelimOk (jsUpper t) city <;>
    simp [h1, h2, Bool.or_assoc]

/-- For a non-empty location text, `isRemoteLocation` equals the spec-side
remote rule. -/
lemma isRemoteLocation_eq_rule (t : String) (h : t ≠ "") :
    isRemoteLocation t = ruleRemote t := by
  unfold isRemoteLocation ruleRemote
  rw [if_neg h]
  cases h1 : containsStr (jsLower (jsTrim t)) "remote" <;>
    cases h2 : (containsStr (jsLower (jsTrim t)) "us-remote"
        || containsStr (jsLower (jsTrim t)) "remote us"
        || containsStr (jsLower (jsTrim t)) "remote - us") <;>
    cases h3 : REMOTE_EXCLUDE_SUBSTRINGS.any fun bad =>
        containsStr (jsLower (jsTrim t)) bad <;>
    simp [h1, h2, h3]

/-! ## Fetch-loop characterization -/

/-- One unfolding of the loop body. -/
lemma fetchLoop_succ (maxRetries : Nat) (resp : Nat → FetchOutcome) (jitter : Nat → Nat)
    (attempt fuel : Nat) :
    fetchLoop maxRetries resp jitter attempt (fuel + 1)
      = match resp attempt with
        | .ok => (.ok (), [])
        | .httpErr s =>
          if isRetryableHttpStatus s && decide (attempt < maxRetries) then
            ((fetchLoop maxRetries resp jitter (attempt + 1) fuel).1,
             retryDelay jitter attempt :: (fetchLoop maxRetries resp jitter (attempt + 1) fuel).2)
          else (.error ("HTTP " ++ natToStr s), [])
        | .netErr nm msg =>
          if isRetryableNetError nm msg && decide (attempt < maxRetries) then
            ((fetchLoop maxRetries resp jitter (attempt + 1) fuel).1,
             retryDelay jitter attempt :: (fetchLoop maxRetries resp jitter (attempt + 1) fuel).2)
          else (.error (if nm == "AbortError" then "Timeout after 60000ms" else msg), []) := rfl

lemma fetchLoop_succ_ok (maxRetries : Nat) (resp : Nat → FetchOutcome) (jitter : Nat → Nat)
    (attempt fuel : Nat) (h : resp attempt = .ok) :
    fetchLoop maxRetries resp jitter attempt (fuel + 1) = (.ok (), []) := by
  rw [fetchLoop_succ, h]

lemma fetchLoop_succ_http (maxRetries : Nat) (resp : Nat → FetchOutcome) (jitter : Nat → Nat)
    (attempt fuel : Nat) (s : Nat) (h : resp attempt = .httpErr s) :
    fetchLoop maxRetries resp jitter attempt (fuel + 1)
      = if isRetryableHttpStatus s && decide (attempt < maxRetries) then
          ((fetchLoop maxRetries resp jitter (attempt + 1) fuel).1,
           retryDelay jitter attempt :: (fetchLoop maxRetries resp jitter (attempt + 1) fuel).2)
        else (.error ("HTTP " ++ natToStr s), []) := by
  rw [fetchLoop_succ, h]

lemma fetchLoop_succ_net (maxRetries : Nat) (resp : Nat → FetchOutcome) (jitter : Nat → Nat)
    (attempt fuel : Nat) (nm msg : String) (h : resp attempt = .netErr nm msg) :
    fetchLoop maxRetries resp jitter attempt (fuel + 1)
      = if isRetryableNetError nm msg && decide (attempt < maxRetries) then
          ((fetchLoop maxRetries resp jitter (attempt + 1) fuel).1,
           retryDelay jitter attempt :: (fetchLoop maxRetries resp jitter (attempt + 1) fuel).2)
        else (.error (if nm == "AbortError" then "Timeout after 60000ms" else msg), []) := by
  rw [fetchLoop_succ, h]

/-- Full characterization of `fetchLoop` from any attempt index, by
induction on the remaining budget: the delays follow the backoff formula,
only retryable outcomes are retried, the loop succeeds exactly when the
attempt after the retries succeeds, and an error is surfaced only on a
non-retryable outcome or an exhausted budget. -/
lemma fetchLoop_spec (maxRetries : Nat) (resp : Nat → FetchOutcome) (jitter : Nat → Nat) :
    ∀ fuel attempt, attempt + fuel = maxRetries →
      (fetchLoop maxRetries resp jitter attempt (fuel + 1)).2.length ≤ fuel
      ∧ (∀ i, i < (fetchLoop maxRetries resp jitter attempt (fuel + 1)).2.length →
          (fetchLoop maxRetries resp jitter attempt (fuel + 1)).2.getD i 0
            = retryDelay jitter (attempt + i))
      ∧ (∀ i, i < (fetchLoop maxRetries resp jitter attempt (fuel + 1)).2.length →
          retryableOutcome (resp (attempt + i)) = true)
      ∧ ((fetchLoop maxRetries resp jitter attempt (fuel + 1)).1 = .ok ()
          ↔ resp (attempt + (fetchLoop maxRetries resp jitter attempt (fuel + 1)).2.length) = .ok)
      ∧ (∀ e, (fetchLoop maxRetries resp jitter attempt (fuel + 1)).1 = .error e →
          retryableOutcome
              (resp (attempt + (fetchLoop maxRetries resp jitter attempt (fuel + 1)).2.length))
            = false
          ∨ attempt + (fetchLoop maxRetries resp jitter attempt (fuel + 1)).2.length
            = maxRetries) := by
  intro fuel
  induction fuel with
  | zero =>
    intro attempt hat
    simp only [Nat.add_zero] at hat
    subst hat
    cases hr : resp attempt with
    | ok => simp [fetchLoop_succ_ok _ _ _ _ _ hr, hr]
    | httpErr s =>
      rw [fetchLoop_succ_http _ _ _ _ _ _ hr, if_neg (by simp)]
      simp [hr, retryableOutcome]
    | netErr nm msg =>
      rw [fetchLoop_succ_net _ _ _ _ _ _ _ hr, if_neg (by simp)]
      simp [hr, retryableOutcome]
  | succ fuel ih =>
    intro attempt hat
    have hlt : attempt < maxRetries := by omega
    obtain ⟨hlen, hdel, hretry, hok, herr⟩ := ih (attempt + 1) (by omega)
    cases hr : resp attempt with
    | ok => simp [fetchLoop_succ_ok _ _ _ _ _ hr, hr]
    | httpErr s =>
      by_cases hs : isRetryableHttpStatus s = true
      · rw [fetchLoop_succ_http _ _ _ _ (fuel + 1) _ hr, if_pos (by simp [hs, hlt])]
        simp only [List.length_cons]
        refine ⟨by omega, ?_, ?_, ?_, ?_⟩
        · intro i hi
          cases i with
          | zero => simp
          | succ i =>
            rw [List.getD_cons_succ, show attempt + (i + 1) = (attempt + 1) + i by omega]
            exact hdel i (by omega)
        · intro i hi
          cases i with
          | zero => simpa [retryableOutcome, hr] using hs
          | succ i =>
            rw [show attempt + (i + 1) = (attempt + 1) + i by omega]
            exact hretry i (by omega)
        · rw [show attempt
                + ((fetchLoop maxRetries resp jitter (attempt + 1) (fuel + 1)).2.length + 1)
              = (attempt + 1) + (fetchLoop maxRetries resp jitter (attempt + 1) (fuel + 1)).2.length
              from by omega]
          exact hok
        · intro e he
          rcases herr e he with h | h
          · left
            rw [show attempt
                  + ((fetchLoop maxRetries resp jitter (attempt + 1) (fuel + 1)).2.length + 1)
                = (attempt + 1)
                  + (fetchLoop maxRetries resp jitter (attempt + 1) (fuel + 1)).2.length
                from by omega]
            exact h
          · right
            omega
      · rw [fetchLoop_succ_http _ _ _ _ (fuel + 1) _ hr, if_neg (by simp [hs])]
        simp [hr, retryableOutcome, hs]
    | netErr nm msg =>
      by_cases hs : isRetryableNetError nm msg = true
      · rw [fetchLoop_succ_net _ _ _ _ (fuel + 1) _ _ hr, if_pos (by simp [hs, hlt])]
        simp only [List.length_cons]
        refine ⟨by omega, ?_, ?_, ?_, ?_⟩
        · intro i hi
          cases i with
          | zero => simp
          | succ i =>
            rw [List.getD_cons_succ, show attempt + (i + 1) = (attempt + 1) + i by omega]
            exact hdel i (by omega)
        · intro i hi
          cases i with
          | zero => simpa [retryableOutcome, hr] using hs
          | succ i =>
            rw [show attempt + (i + 1) = (attempt + 1) + i by omega]
            exact hretry i (by omega)
        · rw [show attempt
                + ((fetchLoop maxRetries resp jitter (attempt + 1) (fuel + 1)).2.length + 1)
              = (attempt + 1) + (fetchLoop maxRetries resp jitter (attempt + 1) (fuel + 1)).2.length
              from by omega]
          exact hok
        · intro e he
          rcases herr e he with h | h
          · left
            rw [show attempt
                  + ((fetchLoop maxRetries resp jitter (attempt + 1) (fuel + 1)).2.length + 1)
                = (attempt + 1)
                  + (fetchLoop maxRetries resp jitter (attempt + 1) (fuel + 1)).2.length
                from by omega]
            exact h
          · right
            omega
      · rw [fetchLoop_succ_net _ _ _ _ (fuel + 1) _ _ hr, if_neg (by simp [hs])]
        simp [hr, retryableOutcome, hs]

/-! ## Run-accumulator characterization -/

lemma accumFeeds_spec (outcomes : List (String × FeedOutcome)) :
    ∀ (p c u errs : Nat) (samples : List (String × String)),
      samples.length ≤ MAX_ERROR_SAMPLES →
      accumFeeds outcomes (p, c, u) errs samples
        = ((p + ((okSummaries outcomes).map FeedSummary.processed).sum,
            c + ((okSummaries outcomes).map FeedSummary.createdCount).sum,
            u + ((okSummaries outcomes).map FeedSummary.updatedCount).sum),
           errs + (errEntries outcomes).length,
           samples ++ (errEntries outcomes).take (MAX_ERROR_SAMPLES - samples.length)) := by
  induction outcomes with
  | nil => intro p c u errs samples _; simp [accumFeeds, okSummaries, errEntries]
  | cons o rest ih =>
    intro p c u errs samples hs
    obtain ⟨url, out⟩ := o
    cases out with
    | ok s =>
      rw [show accumFeeds ((url, Except.ok s) :: rest) (p, c, u) errs samples
            = accumFeeds rest (p + s.processed, c + s.createdCount, u + s.updatedCount)
                errs samples from rfl]
      rw [ih _ _ _ _ _ hs]
      simp [okSummaries, errEntries, List.filterMap_cons]
      omega
    | error msg =>
      rw [show accumFeeds ((url, Except.error msg) :: rest) (p, c, u) errs samples
            = accumFeeds rest (p, c, u) (errs + 1)
                (if samples.length < MAX_ERROR_SAMPLES then samples ++ [(url, msg)]
                 else samples) from rfl]
      by_cases hlt : samples.length < MAX_ERROR_SAMPLES
      · rw [if_pos hlt]
        rw [ih _ _ _ _ _ (by simp; omega)]
        simp only [okSummaries, errEntries, List.filterMap_cons, List.length_append,
          List.length_cons, List.length_nil, Prod.mk.injEq]
        refine ⟨trivial, by omega, ?_⟩
        rw [List.append_assoc, List.singleton_append,
          show MAX_ERROR_SAMPLES - samples.length
              = (MAX_ERROR_SAMPLES - (samples.length + (0 + 1))) + 1 by omega,
          List.take_succ_cons]
      · rw [if_neg hlt]
        rw [ih _ _ _ _ _ hs]
        have hexact : samples.length = MAX_ERROR_SAMPLES := by omega
        simp [okSummaries, errEntries, List.filterMap_cons, hexact]
        omega

/-- One unfolding of `processOneFeed` into the kept list and the write
loop. -/
lemma processOneFeed_def (parse : String → Option Int) (uid : String) (feed : Feed)
    (jobsRaw : List RawJob) (now : Int) (store : JobStore) :
    processOneFeed parse uid feed jobsRaw now store
      = ((ingestList parse uid feed (feedSourceOf feed) now
            (keptPostings parse (feedSourceOf feed) jobsRaw now) store).1,
         ⟨(keptPostings parse (feedSourceOf feed) jobsRaw now).length,
          (ingestList parse uid feed (feedSourceOf feed) now
            (keptPostings parse (feedSourceOf feed) jobsRaw now) store).2.1,
          (ingestList parse uid feed (feedSourceOf feed) now
            (keptPostings parse (feedSourceOf feed) jobsRaw now) store).2.2⟩) := rfl

/-! # Claim theorems -/

/-- Claim C1, counterexample: the identity `acme__7` is stored with
freshness 100; a second ingestion of the same identity with effective
timestamp 50 ≤ 100 is not skipped — the engine reports one `updated` write
and the stored `sourceUpdatedMs` regresses from 100 to 50, refuting both
monotone advance and the `skipped_unchanged` rule. -/
theorem upsert_monotone_counterexample :
    ((processOneFeed sampleParse "u" sampleFeed [sampleJob100] 3600000 emptyStore).1
        "acme__7").map JobDoc.updatedAtMs = some 100
    ∧ (processOneFeed sampleParse "u" sampleFeed [sampleJob50] 3600000
        (processOneFeed sampleParse "u" sampleFeed [sampleJob100] 3600000
          emptyStore).1).2.updatedCount = 1
    ∧ ((processOneFeed sampleParse "u" sampleFeed [sampleJob50] 3600000
        (processOneFeed sampleParse "u" sampleFeed [sampleJob100] 3600000 emptyStore).1).1
        "acme__7").map JobDoc.updatedAtMs = some 50
    ∧ ¬ ((100 : Int) ≤ 50) :=
  ⟨rfl, rfl, rfl, by omega⟩

/-- Claim C1, amended: the upsert engine performs no read of the stored
freshness.  On an existing identity it always executes a merge write
reported as `updated`; the stored `sourceUpdatedMs` afterwards equals the
incoming value of the write, whatever the previously stored value was, so
freshness can regress and no `skipped_unchanged` outcome exists. -/
theorem upsert_always_merges (store : JobStore) (docId : String) (normalized : JobDoc)
    (now : Int) (old : JobDoc) (h : storeGet store docId = some old) :
    upsertJobNoRead store docId normalized now
      = (storeSet store docId (mergeDoc old normalized), 0, 1)
    ∧ storeGet (upsertJobNoRead store docId normalized now).1 docId
      = some (mergeDoc old normalized)
    ∧ (mergeDoc old normalized).updatedAtMs = normalized.updatedAtMs := by
  have he := upsert_merge_of_present store docId normalized now old h
  refine ⟨he, ?_, rfl⟩
  rw [he]
  exact storeGet_storeSet_self _ _ _

/-- Witness for `upsert_always_merges` at a concrete occupied store. -/
theorem upsert_always_merges_witness :
    upsertJobNoRead bookmarkedStore "acme__7" sampleNorm100 3600001
      = (storeSet bookmarkedStore "acme__7" (mergeDoc bookmarkedDoc sampleNorm100), 0, 1) :=
  (upsert_always_merges bookmarkedStore "acme__7" sampleNorm100 3600001 bookmarkedDoc rfl).1

/-- Claim C2 (confirmed): every posting forwarded to the upsert path has a
parsed effective timestamp at least `now − UPDATE_WINDOW_MS`, and the
processing of a feed leaves every document untouched whose id is not that
of a kept posting — in particular a posting with an absent or too-old
timestamp causes no job write. -/
theorem recency_gate (parse : String → Option Int) (uid : String) (feed : Feed)
    (jobsRaw : List RawJob) (now : Int) (store : JobStore) :
    (∀ j ∈ keptPostings parse (feedSourceOf feed) jobsRaw now,
       ∃ m, effectiveMs parse (feedSourceOf feed) j = some m ∧ now - UPDATE_WINDOW_MS ≤ m)
    ∧ ∀ k, (∀ j ∈ keptPostings parse (feedSourceOf feed) jobsRaw now,
          docIdOf feed (feedSourceOf feed) j ≠ k) →
        (processOneFeed parse uid feed jobsRaw now store).1 k = store k := by
  constructor
  · intro j hj
    exact (window_iff_eff parse _ j now).mp (kept_window parse _ jobsRaw now j hj)
  · intro k hk
    rw [processOneFeed_def]
    exact ingestList_untouched parse uid feed _ now _ store k hk

/-- Witness for `recency_gate` at a concrete in-window posting. -/
theorem recency_gate_witness :
    ∃ m, effectiveMs sampleParse (feedSourceOf sampleFeed) sampleJob = some m
      ∧ (3600000 : Int) - UPDATE_WINDOW_MS ≤ m :=
  (recency_gate sampleParse "u" sampleFeed [sampleJob] 3600000 emptyStore).1 sampleJob
    (by decide)

/-- Claim C3 (confirmed): the greenhouse effective timestamp is the maximum
of the parsed `updated_at` and `first_published` candidates, using whichever
parses when only one does; the ashby effective timestamp is `publishedAt`;
and the effective time is absent (`no_timestamp`) exactly when no candidate
parses. -/
theorem effective_time_rule (parse : String → Option Int) (j : RawJob) :
    ((greenhouseEffectiveTime parse j).map EffTime.ms
      = specMaxCandidate (parseIsoToMs parse (orNullStr j.updated_at))
          (parseIsoToMs parse (orNullStr j.first_published)))
    ∧ ((ashbyEffectiveTime parse j).map EffTime.ms
      = parseIsoToMs parse (orNullStr j.publishedAt))
    ∧ (greenhouseEffectiveTime parse j = none
        ↔ parseIsoToMs parse (orNullStr j.updated_at) = none
          ∧ parseIsoToMs parse (orNullStr j.first_published) = none)
    ∧ (ashbyEffectiveTime parse j = none
        ↔ parseIsoToMs parse (orNullStr j.publishedAt) = none) := by
  unfold greenhouseEffectiveTime ashbyEffectiveTime
  cases hu : parseIsoToMs parse (orNullStr j.updated_at) with
  | none =>
    cases hf : parseIsoToMs parse (orNullStr j.first_published) <;>
      cases hp : parseIsoToMs parse (orNullStr j.publishedAt) <;>
        simp [hu, hf, hp, specMaxCandidate]
  | some u =>
    cases hf : parseIsoToMs parse (orNullStr j.first_published) with
    | none =>
      cases hp : parseIsoToMs parse (orNullStr j.publishedAt) <;>
        simp [hu, hf, hp, specMaxCandidate]
    | some f =>
      by_cases huf : u ≥ f
      · cases hp : parseIsoToMs parse (orNullStr j.publishedAt) <;>
          simp [hu, hf, hp, specMaxCandidate, huf, max_eq_left huf]
      · have hlt : u ≤ f := le_of_not_le huf
        cases hp : parseIsoToMs parse (orNullStr j.publishedAt) <;>
          simp [hu, hf, hp, specMaxCandidate, huf, max_eq_right hlt]

/-- Claim C4, counterexample: the location text `Gotham US` is kept by the
source filter (through the standalone-word `US` regex), yet none of the
rules enumerated by the claim matches it. -/
theorem location_filter_counterexample :
    shouldKeepJobByLocation "Gotham US" none = true
    ∧ keepByClaimRules "Gotham US" none = false :=
  ⟨by decide, by decide⟩

/-- Claim C4, amended: a posting with non-empty location text is kept if and
only if the explicit remote flag is set, or a US keyword is a substring, or
a major city / state code occurs between the delimiter characters the
source regexes use (left: start, comma, whitespace, slash, bullet, hyphen,
pipe; right: end, whitespace, comma, semicolon, slash, bullet, hyphen,
pipe), or the word `US` stands at regex word boundaries, or `U.S.` occurs,
or the remote rule holds (with the US-remote phrasings bypassing the
exclusion list). -/
theorem location_filter_amended (t : String) (r : Option Bool) (h : t ≠ "") :
    shouldKeepJobByLocation t r = keepByAmendedRules t r := by
  unfold shouldKeepJobByLocation keepByAmendedRules
  by_cases hr : r = some true
  · simp [hr]
  · rw [if_neg hr, isUSLocation_eq_rules t h, isRemoteLocation_eq_rule t h]
    simp [hr, Bool.or_assoc]

/-- Witness for `location_filter_amended` at a concrete location text. -/
theorem location_filter_amended_witness :
    ("New York, NY" : String) ≠ ""
    ∧ shouldKeepJobByLocation "New York, NY" none = keepByAmendedRules "New York, NY" none :=
  ⟨by decide, location_filter_amended "New York, NY" none (by decide)⟩

/-- Claim C5 (code bug): a feed document that has been archived by the UI
(`archivedAt` set, `active` left `true`, as `archiveFeed` in `Home.jsx`
writes it) is still loaded by `loadUserFeeds` — the worker never consults
`archivedAt`, so archived feeds keep contributing jobs. -/
theorem loadUserFeeds_includes_archived :
    (loadUserFeeds [("f1",
        { url := some "https://boards-api.greenhouse.io/v1/boards/acme/jobs",
          active := some true, archivedAt := some 1700000000000 })]).map Feed.id = ["f1"]
    ∧ ∀ docs : List (String × FeedDocData),
        loadUserFeeds docs
          = loadUserFeeds (docs.map fun d => (d.1, { d.2 with archivedAt := none })) := by
  constructor
  · decide
  · intro docs
    unfold loadUserFeeds
    rw [List.map_map]
    rfl

/-- Claim C6 (confirmed): for every run that completes its main body the
persisted terminal status is `done_with_errors` exactly when at least one
feed failed and `done` otherwise; `durationMs` and the final counters are
recorded; each feed failure is counted and sampled (first
`MAX_ERROR_SAMPLES`) and the totals still sum over every successful feed,
so no single failure aborts the run or hides another feed. -/
theorem run_terminal_record (outcomes : List (String × FeedOutcome))
    (startedAtMs finishedAtMs : Int) :
    (processUserFeeds outcomes startedAtMs finishedAtMs).status
      = (if 0 < (errEntries outcomes).length then "done_with_errors" else "done")
    ∧ (processUserFeeds outcomes startedAtMs finishedAtMs).errorsCount
      = (errEntries outcomes).length
    ∧ (processUserFeeds outcomes startedAtMs finishedAtMs).durationMs
      = finishedAtMs - startedAtMs
    ∧ (processUserFeeds outcomes startedAtMs finishedAtMs).processed
      = ((okSummaries outcomes).map FeedSummary.processed).sum
    ∧ (processUserFeeds outcomes startedAtMs finishedAtMs).createdCount
      = ((okSummaries outcomes).map FeedSummary.createdCount).sum
    ∧ (processUserFeeds outcomes startedAtMs finishedAtMs).updatedCount
      = ((okSummaries outcomes).map FeedSummary.updatedCount).sum
    ∧ (processUserFeeds outcomes startedAtMs finishedAtMs).errorSamples
      = (errEntries outcomes).take MAX_ERROR_SAMPLES := by
  have h := accumFeeds_spec outcomes 0 0 0 0 [] (by simp [MAX_ERROR_SAMPLES])
  unfold processUserFeeds
  rw [h]
  refine ⟨?_, by simp, rfl, by simp, by simp, by simp, by simp⟩
  by_cases he : (errEntries outcomes).length = 0
  · simp [he]
  · simp [he, Nat.pos_of_ne_zero he]

/-- Claim C7, counterexample: a fetch whose first three attempts return the
retryable status 503 and whose fourth attempt would succeed.  Retrying "up
to 3 times" as claimed would reach the success, but the source loop
(`FETCH_RETRIES = 2`) retries only twice and surfaces the 503 after three
attempts. -/
theorem fetch_retry_counterexample :
    (fetchJson sampleResp503 zeroJitter).1 = .error "HTTP 503"
    ∧ (fetchJson sampleResp503 zeroJitter).2 = [800, 1600]
    ∧ (fetchJsonSpecThreeRetries sampleResp503 zeroJitter).1 = .ok ()
    ∧ (fetchJsonSpecThreeRetries sampleResp503 zeroJitter).2 = [800, 1600, 3200] :=
  ⟨rfl, rfl, rfl, rfl⟩

/-- Claim C7, amended: the fetch is retried at most 2 times (3 attempts
total), with backoff `800·2^i` plus the jitter before retry `i`; only
timeouts, retryable network errors and the statuses
{408, 425, 429, 500, 502, 503, 504} are ever retried; the call succeeds
exactly when the attempt after the retries succeeds, and any other failure
is surfaced to the feed caller immediately (retried only while the budget
lasts). -/
theorem fetch_retry_amended (resp : Nat → FetchOutcome) (jitter : Nat → Nat) :
    (fetchJson resp jitter).2.length ≤ FETCH_RETRIES
    ∧ (∀ i, i < (fetchJson resp jitter).2.length →
        (fetchJson resp jitter).2.getD i 0 = FETCH_RETRY_BASE_DELAY_MS * 2 ^ i + jitter i)
    ∧ (∀ i, i < (fetchJson resp jitter).2.length → retryableOutcome (resp i) = true)
    ∧ ((fetchJson resp jitter).1 = .ok ()
        ↔ resp (fetchJson resp jitter).2.length = .ok)
    ∧ (∀ e, (fetchJson resp jitter).1 = .error e →
        retryableOutcome (resp (fetchJson resp jitter).2.length) = false
        ∨ (fetchJson resp jitter).2.length = FETCH_RETRIES) := by
  have h := fetchLoop_spec FETCH_RETRIES resp jitter FETCH_RETRIES 0 rfl
  simpa [fetchJson, retryDelay] using h

/-- Witness for `fetch_retry_amended`: one retryable 503 followed by a
success is retried and succeeds. -/
theorem fetch_retry_amended_witness :
    retryableOutcome (sampleResp1 0) = true
    ∧ ((fetchJson sampleResp1 zeroJitter).1 = .ok ()
        ↔ sampleResp1 (fetchJson sampleResp1 zeroJitter).2.length = .ok) :=
  ⟨(fetch_retry_amended sampleResp1 zeroJitter).2.2.1 0 (by decide),
   (fetch_retry_amended sampleResp1 zeroJitter).2.2.2.1⟩

/-- Claim C8, counterexample: a stored job bookmarked by the UI
(`saved = true`) loses its bookmark when the same posting is ingested
again — the merge write carries `saved: false`. -/
theorem saved_flag_counterexample :
    (bookmarkedStore "acme__7").map JobDoc.saved = some true
    ∧ ((processOneFeed sampleParse "u" sampleFeed [sampleJob100] 3600000
        bookmarkedStore).1 "acme__7").map JobDoc.saved = some false :=
  ⟨rfl, rfl⟩

/-- Claim C8, amended: `normalizeJob` unconditionally sets `saved := false`
and the merge write of the ingestion upsert overwrites the stored bookmark
with it, so `saved` never survives a refresh of an existing document. -/
theorem saved_reset_amended (parse : String → Option Int) (uid : String) (feed : Feed)
    (gh : RawJob) (source : String) (orig : RawJob) (now : Int) (store : JobStore)
    (docId : String) (old : JobDoc) (h : storeGet store docId = some old) :
    (normalizeJob parse uid feed gh source orig now).saved = false
    ∧ (storeGet (upsertJobNoRead store docId
          (normalizeJob parse uid feed gh source orig now) now).1 docId).map JobDoc.saved
      = some false := by
  refine ⟨rfl, ?_⟩
  rw [upsert_merge_of_present store docId _ now old h, storeGet_storeSet_self]
  rfl

/-- Witness for `saved_reset_amended` at the bookmarked store. -/
theorem saved_reset_amended_witness :
    (normalizeJob sampleParse "u" sampleFeed sampleJob100 "greenhouse" sampleJob100
        3600001).saved = false
    ∧ (storeGet (upsertJobNoRead bookmarkedStore "acme__7"
          (normalizeJob sampleParse "u" sampleFeed sampleJob100 "greenhouse" sampleJob100
            3600001) 3600001).1 "acme__7").map JobDoc.saved = some false :=
  saved_reset_amended sampleParse "u" sampleFeed sampleJob100 "greenhouse" sampleJob100
    3600001 bookmarkedStore "acme__7" bookmarkedDoc rfl

/-- Claim C9, counterexample: ingesting the identical payload twice
back-to-back (both runs in-window) gives `added = 0, updated = 1` as the
claim allows, but the final stored document differs from the state after
the first run: the write-time fields advance, so the stored states are not
equal. -/
theorem run_idempotent_counterexample :
    (processOneFeed sampleParse "u" sampleFeed [sampleJob] 3600001
        (processOneFeed sampleParse "u" sampleFeed [sampleJob] 3600000 emptyStore).1).2
      = ⟨1, 0, 1⟩
    ∧ ((processOneFeed sampleParse "u" sampleFeed [sampleJob] 3600001
        (processOneFeed sampleParse "u" sampleFeed [sampleJob] 3600000 emptyStore).1).1
        "acme__7").map JobDoc.lastSeenAt = some 3600001
    ∧ ((processOneFeed sampleParse "u" sampleFeed [sampleJob] 3600000 emptyStore).1
        "acme__7").map JobDoc.lastSeenAt = some 3600000
    ∧ (processOneFeed sampleParse "u" sampleFeed [sampleJob] 3600001
        (processOneFeed sampleParse "u" sampleFeed [sampleJob] 3600000 emptyStore).1).1
        "acme__7"
      ≠ (processOneFeed sampleParse "u" sampleFeed [sampleJob] 3600000 emptyStore).1
        "acme__7" :=
  ⟨rfl, rfl, rfl, by decide⟩

/-- Claim C9, amended: for an identical payload ingested twice back-to-back
(same kept postings in both runs, duplicate-free document ids), the second
run yields `added = 0` and `updated = N` (`N` the number of kept postings),
and the final stored state agrees with the state after the first run on
every field except the write-time housekeeping fields `lastSeenAt` and
`lastIngestedAt`, which advance to the second write time. -/
theorem run_idempotent_amended (parse : String → Option Int) (uid : String) (feed : Feed)
    (jobsRaw : List RawJob) (t1 t2 : Int) (s0 : JobStore)
    (hkept : keptPostings parse (feedSourceOf feed) jobsRaw t2
      = keptPostings parse (feedSourceOf feed) jobsRaw t1)
    (hnd : ((keptPostings parse (feedSourceOf feed) jobsRaw t1).map
        (docIdOf feed (feedSourceOf feed))).Nodup) :
    (processOneFeed parse uid feed jobsRaw t2
        (processOneFeed parse uid feed jobsRaw t1 s0).1).2.createdCount = 0
    ∧ (processOneFeed parse uid feed jobsRaw t2
        (processOneFeed parse uid feed jobsRaw t1 s0).1).2.updatedCount
      = (processOneFeed parse uid feed jobsRaw t2
          (processOneFeed parse uid feed jobsRaw t1 s0).1).2.processed
    ∧ ∀ k, coreEq
        ((processOneFeed parse uid feed jobsRaw t2
            (processOneFeed parse uid feed jobsRaw t1 s0).1).1 k)
        ((processOneFeed parse uid feed jobsRaw t1 s0).1 k) := by
  have hpres : ∀ j ∈ keptPostings parse (feedSourceOf feed) jobsRaw t1,
      ∃ d, (processOneFeed parse uid feed jobsRaw t1 s0).1 (docIdOf feed (feedSourceOf feed) j)
          = some d
        ∧ stripHK d = stripHK (normOf parse uid feed (feedSourceOf feed) t2 j) := by
    intro j hj
    obtain ⟨d, hd, hst⟩ := ingestList_doc_after parse uid feed (feedSourceOf feed) t1
      (keptPostings parse (feedSourceOf feed) jobsRaw t1) s0 hnd j hj
    refine ⟨d, ?_, ?_⟩
    · rw [processOneFeed_def]
      exact hd
    · rw [hst]
      exact stripHK_norm_time_free parse uid feed (feedSourceOf feed) j t1 t1 t2
        (kept_window parse (feedSourceOf feed) jobsRaw t1 j hj)
  rw [processOneFeed_def parse uid feed jobsRaw t2, hkept]
  obtain ⟨hc, hu, hcore⟩ := ingestList_second parse uid feed (feedSourceOf feed) t2
    (keptPostings parse (feedSourceOf feed) jobsRaw t1)
    ((processOneFeed parse uid feed jobsRaw t1 s0).1) hnd hpres
  exact ⟨hc, by rw [hu], hcore⟩

/-- Witness for `run_idempotent_amended` at a concrete back-to-back pair of
runs. -/
theorem run_idempotent_amended_witness :
    (processOneFeed sampleParse "u" sampleFeed [sampleJob] 3600001
        (processOneFeed sampleParse "u" sampleFeed [sampleJob] 3600000 emptyStore).1).2.createdCount
      = 0
    ∧ coreEq
        ((processOneFeed sampleParse "u" sampleFeed [sampleJob] 3600001
            (processOneFeed sampleParse "u" sampleFeed [sampleJob] 3600000 emptyStore).1).1
          "acme__7")
        ((processOneFeed sampleParse "u" sampleFeed [sampleJob] 3600000 emptyStore).1
          "acme__7") :=
  ⟨(run_idempotent_amended sampleParse "u" sampleFeed [sampleJob] 3600000 3600001 emptyStore
      (by decide) (by decide)).1,
   (run_idempotent_amended sampleParse "u" sampleFeed [sampleJob] 3600000 3600001 emptyStore
      (by decide) (by decide)).2.2 "acme__7"⟩

/-- Claim C10 (confirmed): a posting that passes the recency gate but whose
location text is empty or missing bypasses the location filter and is kept,
and its stored document carries `locationName = "Remote"` and
`isRemote = true`. -/
theorem empty_location_kept (parse : String → Option Int) (uid : String) (feed : Feed)
    (jobsRaw : List RawJob) (now : Int) (j : RawJob) (hj : j ∈ jobsRaw)
    (hwin : isJobWithinUpdateWindow parse (feedSourceOf feed) j now = true)
    (hloc : rawLocOf (feedSourceOf feed) j = "") :
    j ∈ keptPostings parse (feedSourceOf feed) jobsRaw now
    ∧ (normOf parse uid feed (feedSourceOf feed) now j).locationName = "Remote"
    ∧ (normOf parse uid feed (feedSourceOf feed) now j).isRemote = true := by
  have hgh : (toGreenhouseLikeJob (feedSourceOf feed) j).location_name.getD "" = "" := by
    unfold toGreenhouseLikeJob
    unfold rawLocOf at hloc
    by_cases hg : feedSourceOf feed = "greenhouse"
    · rw [if_pos hg]
      rw [if_pos hg] at hloc
      exact hloc
    · rw [if_neg hg]
      rw [if_neg hg] at hloc
      simpa using hloc
  refine ⟨?_, ?_, ?_⟩
  · unfold keptPostings
    rw [List.mem_filter]
    exact ⟨hj, by simp [hwin, hloc]⟩
  · simp [normOf, normalizeJob, hgh]
  · simp [normOf, normalizeJob, hgh]

/-- Witness for `empty_location_kept` at a concrete location-free
posting. -/
theorem empty_location_kept_witness :
    sampleJobNoLoc ∈ keptPostings sampleParse (feedSourceOf sampleFeed) [sampleJobNoLoc] 3600000
    ∧ (normOf sampleParse "u" sampleFeed (feedSourceOf sampleFeed) 3600000
        sampleJobNoLoc).locationName = "Remote"
    ∧ (normOf sampleParse "u" sampleFeed (feedSourceOf sampleFeed) 3600000
        sampleJobNoLoc).isRemote = true :=
  empty_location_kept sampleParse "u" sampleFeed [sampleJobNoLoc] 3600000 sampleJobNoLoc
    (by decide) (by decide) (by decide)

end JobWatch
